import Mathlib

/-!
Verification of `src/core/ClusterMap.cpp` (infomap): reading external
cluster/partition files in `.tree`/`.ftree` and `.clu` format, with optional
multilayer (layer,node) → state-id resolution.

The C++ parsers work on `std::istringstream`s; we model a stream as its
remaining characters plus the `eofbit` and `failbit` flags, and each
extraction operation (`>>` for unsigned/double/string, `getline` with a
delimiter, `get`) as a function on that state, following the C++ stream
semantics: a formatted extraction first fails if the stream is not good,
skips whitespace, fails (setting `failbit`, and `eofbit` when input ran out)
if nothing convertible follows; `getline` fails only when it extracts zero
characters; `eofbit` is set when an extraction stops because input ran out.
-/

namespace Infomap

/-- Whitespace for stream extraction (C locale `isspace`). -/
def isWS (c : Char) : Bool :=
  c = ' ' || c = '\t' || c = '\n' || c = '\r' || c = '\x0b' || c = '\x0c'

/-- Decimal digit test. -/
def isDigit (c : Char) : Bool :=
  '0' ≤ c && c ≤ '9'

/-- Value of a list of decimal digits, most significant first. -/
def digitsToNat (ds : List Char) : Nat :=
  ds.foldl (fun a c => 10 * a + (c.toNat - 48)) 0

/-- A C++ `istringstream` over one line: remaining characters, `eofbit`, `failbit`. -/
structure IStream where
  chars : List Char
  eofb : Bool
  failb : Bool

/-- Models `lineStream >> x` for `unsigned int x`: skip whitespace, read a
maximal digit run; no digits (or out-of-`unsigned`-range value) sets `failbit`;
consuming the whole input sets `eofbit`. -/
def IStream.readNat (st : IStream) : Option Nat × IStream :=
  if st.failb || st.eofb then (none, { st with failb := true })
  else
    let cs := st.chars.dropWhile isWS
    if cs.isEmpty then (none, ⟨cs, true, true⟩)
    else
      let ds := cs.takeWhile isDigit
      if ds.isEmpty then (none, ⟨cs, false, true⟩)
      else
        let rest := cs.dropWhile isDigit
        let v := digitsToNat ds
        if v < 2 ^ 32 then (some v, ⟨rest, rest.isEmpty, false⟩)
        else (none, ⟨rest, rest.isEmpty, true⟩)

/-- Models `lineStream >> s` for `std::string s`: skip whitespace, read a
maximal non-whitespace run; fails when input ran out. -/
def IStream.readToken (st : IStream) : Option (List Char) × IStream :=
  if st.failb || st.eofb then (none, { st with failb := true })
  else
    let cs := st.chars.dropWhile isWS
    if cs.isEmpty then (none, ⟨cs, true, true⟩)
    else
      let tk := cs.takeWhile (fun c => !isWS c)
      let rest := cs.dropWhile (fun c => !isWS c)
      (some tk, ⟨rest, rest.isEmpty, false⟩)

/-- Models `lineStream >> x` for `double x`, on the decimal grammar
`[+-] digits [. digits] [eE [+-] digits]` actually exercised by these input
files (at least one mantissa digit required; an `e` not followed by digits is
not consumed). The value is kept exactly, as a rational. -/
def IStream.readRat (st : IStream) : Option ℚ × IStream :=
  if st.failb || st.eofb then (none, { st with failb := true })
  else
    let cs := st.chars.dropWhile isWS
    if cs.isEmpty then (none, ⟨cs, true, true⟩)
    else
      let (neg, cs1) : Bool × List Char :=
        match cs with
        | '-' :: t => (true, t)
        | '+' :: t => (false, t)
        | _ => (false, cs)
      let ds := cs1.takeWhile isDigit
      let cs2 := cs1.dropWhile isDigit
      let (fds, cs3) : List Char × List Char :=
        match cs2 with
        | '.' :: t => (t.takeWhile isDigit, t.dropWhile isDigit)
        | _ => ([], cs2)
      if ds.isEmpty && fds.isEmpty then (none, ⟨cs, false, true⟩)
      else
        let (eneg, eds, cs4) : Bool × List Char × List Char :=
          match cs3 with
          | 'e' :: '-' :: t => (true, t.takeWhile isDigit, t.dropWhile isDigit)
          | 'e' :: '+' :: t => (false, t.takeWhile isDigit, t.dropWhile isDigit)
          | 'e' :: t => (false, t.takeWhile isDigit, t.dropWhile isDigit)
          | 'E' :: '-' :: t => (true, t.takeWhile isDigit, t.dropWhile isDigit)
          | 'E' :: '+' :: t => (false, t.takeWhile isDigit, t.dropWhile isDigit)
          | 'E' :: t => (false, t.takeWhile isDigit, t.dropWhile isDigit)
          | _ => (false, [], cs3)
        let (eds, cs4) : List Char × List Char :=
          if eds.isEmpty then ([], cs3) else (eds, cs4)
        let mnum : Nat := digitsToNat ds * 10 ^ fds.length + digitsToNat fds
        let e : Nat := digitsToNat eds
        let (num, den) : Nat × Nat :=
          if eneg then (mnum, 10 ^ (fds.length + e))
          else (mnum * 10 ^ e, 10 ^ fds.length)
        let v : ℚ := Rat.divInt (if neg then -(num : Int) else (num : Int)) (den : Int)
        (some v, ⟨cs4, cs4.isEmpty, false⟩)

/-- Models `getline(lineStream, name, char(34))` (delimiter the double
quote): unformatted read up to and including the first delimiter, or to end
of input; fails exactly when zero characters are extracted. -/
def IStream.getlineQ (st : IStream) : Option (List Char) × IStream :=
  if st.failb || st.eofb then (none, { st with failb := true })
  else if st.chars.isEmpty then (none, ⟨[], true, true⟩)
  else
    let pre := st.chars.takeWhile (fun c => c ≠ '"')
    match st.chars.dropWhile (fun c => c ≠ '"') with
    | _ :: t => (some pre, ⟨t, false, false⟩)
    | [] => (some pre, ⟨[], true, false⟩)

/-- Models `pathStream.get()` with the returned character discarded:
consume one character; at end of input set `eofbit` and `failbit`. -/
def IStream.getc (st : IStream) : IStream :=
  if st.failb || st.eofb then { st with failb := true }
  else
    match st.chars with
    | [] => ⟨[], true, true⟩
    | _ :: t => ⟨t, false, false⟩

/-!  Error taxonomy: one constructor per `throw` site of `ClusterMap.cpp`,
carrying the same diagnostic data as the C++ message. -/

/-- Errors thrown by `ClusterMap`: `unsupportedFormat` is the
`ImplementationError` of `readClusterData`; `badName` the
`BadConversionError` of the two `getline` calls in `readTree`; `zeroInPath`
the path-element check; the rest are `FileFormatError`s, one per site. -/
inductive Err where
  | unsupportedFormat (filename ext : String)
  | badPath (line : String)
  | badFlow (line : String)
  | badName (lineNr : Nat) (line : String)
  | badStateId (line : String)
  | missingHigherOrder (line : String)
  | badLayerId (line : String)
  | zeroInPath
  | badCluIds (line : String)
  | badCluNodeId (line : String)
  | badCluLayerId (line : String)

/-- Association-list map with std::map per-key overwrite semantics
(`m[k] = v`): replace in place, or append a new key. -/
def mapInsert {α : Type} : List (Nat × α) → Nat → α → List (Nat × α)
  | [], k, v => [(k, v)]
  | (k', v') :: t, k, v =>
    if k' = k then (k, v) :: t else (k', v') :: mapInsert t k v

/-- Lookup in an association-list map (`m.find(k)`). -/
def mapLookup {α : Type} : List (Nat × α) → Nat → Option α
  | [], _ => none
  | (k', v') :: t, k => if k' = k then some v' else mapLookup t k

/-- The external `layerNodeToStateId` table: a read-only
`std::map<unsigned int, std::map<unsigned int, unsigned int>>`, layer id →
(node id → state id). -/
def MLIndex : Type := Nat → Option (Nat → Option Nat)

/-- The two-level `find` of both parsers: look up the layer, then the node;
`none` on a miss at either level. -/
def resolve (idx : MLIndex) (layerId nodeId : Nat) : Option Nat :=
  match idx layerId with
  | none => none
  | some inner => inner nodeId

/-- The `ClusterMap` object: `m_nodePaths`, `m_clusterIds`, `m_flowData`,
`m_isHigherOrder`, `m_extension`. -/
structure ClusterMap where
  nodePaths : List (Nat × List Nat)
  clusterIds : List (Nat × Nat)
  flowData : List (Nat × ℚ)
  isHigherOrder : Bool
  extension : String

/-- A freshly constructed `ClusterMap` (all members default-initialized). -/
def ClusterMap.init : ClusterMap := ⟨[], [], [], false, ""⟩

/-- The path-decoding loop of `readTree`:
`while (pathStream >> childNumber) { pathStream.get(); if (childNumber == 0) throw ...; path.push_back(childNumber); }`.
Each iteration of the C++ loop consumes at least one character, so the loop
is run here on a character-count fuel; `lem_parsePathGo_fuel` shows the
fuel-exhaustion branch is never reached from the fuel `parsePath`
supplies. -/
def parsePathGo : Nat → IStream → List Nat → Except Err (List Nat)
  | 0, _, acc => .ok acc
  | fuel + 1, st, acc =>
    match st.readNat with
    | (none, _) => .ok acc
    | (some n, st') =>
      let st2 := st'.getc
      if n = 0 then .error .zeroInPath
      else parsePathGo fuel st2 (acc ++ [n])

/-- Decode a tree path token into its list of child numbers. -/
def parsePath (pathString : List Char) : Except Err (List Nat) :=
  parsePathGo (pathString.length + 1) ⟨pathString, false, false⟩ []

/-- The first half of a `.tree` data line, `ClusterMap::readTree` lines
75-85: extract the path token, the flow, the quoted name (two `getline`
calls up to a double quote; the first fills `name` with the text before the
opening quote, the second overwrites it with the text between the quotes),
and the state id. Returns the extracted values and the stream as left after
the state id, for the optional trailing fields. -/
def treeStage1 (lineNr : Nat) (line : String) :
    Except Err (List Char × ℚ × List Char × Nat × IStream) :=
  let st0 : IStream := ⟨line.data, false, false⟩
  match st0.readToken with
  | (none, _) => .error (.badPath line)
  | (some pathString, st1) =>
    match st1.readRat with
    | (none, _) => .error (.badFlow line)
    | (some flow, st2) =>
      match st2.getlineQ with
      | (none, _) => .error (.badName lineNr line)
      | (some _, st3) =>
        match st3.getlineQ with
        | (none, _) => .error (.badName lineNr line)
        | (some name, st4) =>
          match st4.readNat with
          | (none, _) => .error (.badStateId line)
          | (some stateId, st5) => .ok (pathString, flow, name, stateId, st5)

/-- The emission tail of `readTree` (lines 113-128): decode the path token
(throwing on a 0 element), append `(stateId, path)` to `m_nodePaths`, and
when `includeFlow` record `m_flowData[stateId] = flow`. -/
def treeEmit (includeFlow : Bool) (cm : ClusterMap) (stateId : Nat)
    (pathString : List Char) (flow : ℚ) : Except Err ClusterMap :=
  match parsePath pathString with
  | .error e => .error e
  | .ok path =>
    let cm := { cm with nodePaths := cm.nodePaths ++ [(stateId, path)] }
    if includeFlow then .ok { cm with flowData := mapInsert cm.flowData stateId flow }
    else .ok cm

/-- One `.tree` data line (`readTree` loop body after the skip/section
checks): stage 1, then the optional node id (entering higher-order mode on
success, failing when it is absent but higher-order mode is already on),
then in multilayer mode the layer id and the (layer, node) resolution,
silently dropping the record on an index miss. -/
def readTreeLine (includeFlow : Bool) (idx : Option MLIndex) (lineNr : Nat)
    (cm : ClusterMap) (line : String) : Except Err ClusterMap :=
  match treeStage1 lineNr line with
  | .error e => .error e
  | .ok (pathString, flow, _name, stateId, st5) =>
    let rdNode := st5.readNat
    if rdNode.1.isNone && cm.isHigherOrder then .error (.missingHigherOrder line)
    else
      let cm1 := if rdNode.1.isSome then { cm with isHigherOrder := true } else cm
      match idx with
      | none => treeEmit includeFlow cm1 stateId pathString flow
      | some index =>
        match rdNode.2.readNat with
        | (none, _) => .error (.badLayerId line)
        | (some layerId, _) =>
          match resolve index layerId (rdNode.1.getD 0) with
          | none => .ok cm1
          | some newStateId => treeEmit includeFlow cm1 newStateId pathString flow

/-- The `readTree` line loop: blank lines are skipped, `#` lines are skipped
(the first physical line, when it starts with `#`, is captured into the
write-only local `header`), a `*` line breaks out of the loop successfully,
any other line is a data line. `lineNr` counts physical lines. -/
def readTreeLoop (includeFlow : Bool) (idx : Option MLIndex) :
    List String → Nat → ClusterMap → Except Err ClusterMap
  | [], _, cm => .ok cm
  | line :: rest, lineNr, cm =>
    match line.data with
    | [] => readTreeLoop includeFlow idx rest (lineNr + 1) cm
    | c :: _ =>
      if c = '#' then readTreeLoop includeFlow idx rest (lineNr + 1) cm
      else if c = '*' then .ok cm
      else
        match readTreeLine includeFlow idx (lineNr + 1) cm line with
        | .error e => .error e
        | .ok cm' => readTreeLoop includeFlow idx rest (lineNr + 1) cm'

/-- `ClusterMap::readTree`: the input file is its list of lines. Of the
member collections only `m_nodePaths` is cleared on entry (line 40);
`m_clusterIds`, `m_flowData` and `m_isHigherOrder` are left as they were. -/
def readTree (includeFlow : Bool) (idx : Option MLIndex) (cm : ClusterMap)
    (lines : List String) : Except Err ClusterMap :=
  readTreeLoop includeFlow idx lines 0 { cm with nodePaths := [] }

/-- One `.clu` data line (`readClu` loop body after the skip checks): state
id and module id (mandatory), then an optional flow — recorded under the
raw state id, before any multilayer resolution, when present and
`includeFlow` is set —, then in multilayer mode the mandatory node and
layer ids and the resolution, dropping the record from `m_clusterIds` on an
index miss. First the optional flow of `readClu` lines 158-162: when the
flow read succeeded and `includeFlow` is set, record
`m_flowData[stateId] = flow` — under the state id as read from the line. -/
def cluFlowUpdate (includeFlow : Bool) (cm : ClusterMap) (stateId : Nat)
    (fl : Option ℚ) : ClusterMap :=
  match fl with
  | some flow =>
    if includeFlow then { cm with flowData := mapInsert cm.flowData stateId flow }
    else cm
  | none => cm

/-- One `.clu` data line (`readClu` loop body after the skip checks): state
id and module id (mandatory), the optional flow via `cluFlowUpdate` —
applied before any multilayer resolution —, then in multilayer mode the
mandatory node and layer ids and the resolution. -/
def readCluLine (includeFlow : Bool) (idx : Option MLIndex) (cm : ClusterMap)
    (line : String) : Except Err ClusterMap :=
  let st0 : IStream := ⟨line.data, false, false⟩
  let rd1 := st0.readNat
  let rd2 := rd1.2.readNat
  match rd1.1, rd2.1 with
  | some stateId, some moduleId =>
    let rdFlow := rd2.2.readRat
    let cm := cluFlowUpdate includeFlow cm stateId rdFlow.1
    match idx with
    | none => .ok { cm with clusterIds := mapInsert cm.clusterIds stateId moduleId }
    | some index =>
      match rdFlow.2.readNat with
      | (none, _) => .error (.badCluNodeId line)
      | (some nodeId, st4) =>
        match st4.readNat with
        | (none, _) => .error (.badCluLayerId line)
        | (some layerId, _) =>
          match resolve index layerId nodeId with
          | none => .ok cm
          | some newStateId =>
            .ok { cm with clusterIds := mapInsert cm.clusterIds newStateId moduleId }
  | _, _ => .error (.badCluIds line)

/-- The `readClu` line loop: blank, `#` and `*` lines are all merely
skipped; every other line is a data line. -/
def readCluLoop (includeFlow : Bool) (idx : Option MLIndex) :
    ClusterMap → List String → Except Err ClusterMap
  | cm, [] => .ok cm
  | cm, line :: rest =>
    match line.data with
    | [] => readCluLoop includeFlow idx cm rest
    | c :: _ =>
      if c = '#' then readCluLoop includeFlow idx cm rest
      else if c = '*' then readCluLoop includeFlow idx cm rest
      else
        match readCluLine includeFlow idx cm line with
        | .error e => .error e
        | .ok cm' => readCluLoop includeFlow idx cm' rest

/-- `ClusterMap::readClu`: no member collection is cleared on entry (the
local `std::map clusterData` declared at line 140 is never used). -/
def readClu (includeFlow : Bool) (idx : Option MLIndex) (cm : ClusterMap)
    (lines : List String) : Except Err ClusterMap :=
  readCluLoop includeFlow idx cm lines

/-- Modelled from the spec: `FileURI::getExtension` (`src/utils/FileURI.h`
is not part of the repository slice). Per the spec, the extension "is
derived case-sensitively from the path's suffix after the last `.`"; a path
without a dot is given the empty extension. -/
def getExtension (filename : String) : String :=
  if filename.data.contains '.' then
    ⟨(filename.data.reverse.takeWhile (fun c => c ≠ '.')).reverse⟩
  else ""

/-- `ClusterMap::readClusterData`: store the extension in `m_extension`,
dispatch on it to `readTree` (for `tree`/`ftree`) or `readClu` (for `clu`),
and throw `unsupportedFormat` for anything else, before looking at any
line. -/
def readClusterData (filename : String) (includeFlow : Bool)
    (idx : Option MLIndex) (cm : ClusterMap) (lines : List String) :
    Except Err ClusterMap :=
  let ext := getExtension filename
  let cm := { cm with extension := ext }
  if ext = "tree" || ext = "ftree" then readTree includeFlow idx cm lines
  else if ext = "clu" then readClu includeFlow idx cm lines
  else .error (.unsupportedFormat filename ext)

/-- A multilayer index with no entries at all: every (layer, node) lookup
misses. -/
def emptyIndexML : MLIndex := fun _ => none

/-- The index of the spec's `.clu` multilayer scenario: layer 2, node 10 →
state id 42, nothing else. -/
def sampleIndex : MLIndex :=
  fun l => if l = 2 then some (fun n => if n = 10 then some 42 else none) else none

/-- A `ClusterMap` as left by an earlier parse: nonempty collections, the
higher-order flag on. Used to observe what a new parse call resets. -/
def cmPrev : ClusterMap := ⟨[(9, [9])], [(1, 2)], [(7, Rat.divInt 1 2)], true, ""⟩

/-!  Helper lemmas shared by the claim theorems. -/

/-- Dropping characters with `dropWhile` never lengthens a list. -/
theorem lem_length_dropWhile_le (p : Char → Bool) (l : List Char) :
    (l.dropWhile p).length ≤ l.length := by
  induction l with
  | nil => simp [List.dropWhile]
  | cons a t ih =>
    simp only [List.dropWhile]
    cases p a
    · simp
    · simp only [List.length_cons]
      omega

/-- A successful `>> unsigned` consumes at least one character. -/
theorem lem_readNat_some_length {st st' : IStream} {n : Nat}
    (h : st.readNat = (some n, st')) : st'.chars.length < st.chars.length := by
  simp only [IStream.readNat] at h
  split at h
  · exact absurd h (by simp)
  · rename_i hgood
    split at h
    · exact absurd h (by simp)
    · rename_i hne
      split at h
      · exact absurd h (by simp)
      · rename_i hds
        split at h
        · rw [Prod.mk.injEq] at h
          obtain ⟨-, h2⟩ := h
          subst h2
          simp only []
          have hcs : st.chars.dropWhile isWS ≠ [] := by
            intro hc
            rw [hc] at hne
            exact hne rfl
          obtain ⟨c, t, hct⟩ : ∃ c t, st.chars.dropWhile isWS = c :: t := by
            cases hcs2 : st.chars.dropWhile isWS with
            | nil => exact absurd hcs2 hcs
            | cons c t => exact ⟨c, t, rfl⟩
          have hd : isDigit c = true := by
            by_contra hd
            apply hds
            rw [hct]
            simp only [List.takeWhile]
            rw [Bool.not_eq_true] at hd
            rw [hd]
            rfl
          calc ((st.chars.dropWhile isWS).dropWhile isDigit).length
              = ((c :: t).dropWhile isDigit).length := by rw [hct]
            _ = (t.dropWhile isDigit).length := by
                  simp only [List.dropWhile]
                  rw [hd]
            _ ≤ t.length := lem_length_dropWhile_le isDigit t
            _ < (c :: t).length := by simp
            _ = (st.chars.dropWhile isWS).length := by rw [hct]
            _ ≤ st.chars.length := lem_length_dropWhile_le isWS st.chars
        · exact absurd h (by simp)

/-- `get()` never lengthens the remaining input. -/
theorem lem_getc_length_le (st : IStream) :
    st.getc.chars.length ≤ st.chars.length := by
  unfold IStream.getc
  split
  · exact Nat.le_refl _
  · split
    · simp
    · rename_i c t heq
      rw [heq]
      simp

/-- Any fuel exceeding the number of remaining characters gives the same
result: the fuel-exhaustion branch of `parsePathGo` is unreachable, so the
fueled loop is exactly the C++ `while` loop. -/
theorem lem_parsePathGo_fuel (fuel : Nat) :
    ∀ (st : IStream) (acc : List Nat) (fuel' : Nat),
      st.chars.length < fuel → st.chars.length < fuel' →
      parsePathGo fuel st acc = parsePathGo fuel' st acc := by
  induction fuel with
  | zero => intro st acc fuel' h _; exact absurd h (Nat.not_lt_zero _)
  | succ f ih =>
    intro st acc fuel' h h'
    cases fuel' with
    | zero => exact absurd h' (Nat.not_lt_zero _)
    | succ f' =>
      simp only [parsePathGo]
      cases hr : st.readNat with
      | mk v st2 =>
        cases v with
        | none => rfl
        | some n =>
          simp only []
          by_cases hn : n = 0
          · rw [if_pos hn, if_pos hn]
          · rw [if_neg hn, if_neg hn]
            have hlt : st2.getc.chars.length < st.chars.length :=
              Nat.lt_of_le_of_lt (lem_getc_length_le st2) (lem_readNat_some_length hr)
            exact ih st2.getc (acc ++ [n]) f'
              (Nat.lt_of_lt_of_le hlt (Nat.le_of_succ_le_succ h))
              (Nat.lt_of_lt_of_le hlt (Nat.le_of_succ_le_succ h'))


/-- `treeEmit` never changes the higher-order flag. -/
theorem lem_treeEmit_ho {includeFlow : Bool} {cm cm' : ClusterMap} {sid : Nat}
    {p : List Char} {fl : ℚ} (h : treeEmit includeFlow cm sid p fl = .ok cm') :
    cm'.isHigherOrder = cm.isHigherOrder := by
  simp only [treeEmit] at h
  split at h
  · exact absurd h (by simp)
  · split at h
    · rw [← Except.ok.inj h]
    · rw [← Except.ok.inj h]

/-- A successfully parsed tree line keeps the higher-order flag on. -/
theorem lem_tree_ho_persist_line {includeFlow : Bool} {idx : Option MLIndex}
    {lineNr : Nat} {cm cm' : ClusterMap} {line : String}
    (hho : cm.isHigherOrder = true)
    (h : readTreeLine includeFlow idx lineNr cm line = .ok cm') :
    cm'.isHigherOrder = true := by
  simp only [readTreeLine] at h
  split at h
  · exact absurd h (by simp)
  · rename_i x pth fl nm sid st5 heq
    split at h
    · exact absurd h (by simp)
    · rename_i hcond
      have hcm1 : ∀ (b : Bool),
          (if b = true then { cm with isHigherOrder := true } else cm).isHigherOrder = true := by
        intro b
        cases b
        · simpa using hho
        · simp
      generalize hg :
        (if (st5.readNat).1.isSome = true then { cm with isHigherOrder := true } else cm) = cm1 at h
      have hone : cm1.isHigherOrder = true := by
        rw [← hg]
        exact hcm1 _
      split at h
      · rw [lem_treeEmit_ho h]
        exact hone
      · split at h
        · exact absurd h (by simp)
        · split at h
          · rw [← Except.ok.inj h]
            exact hone
          · rw [lem_treeEmit_ho h]
            exact hone

/-- A tree line that does supply the optional trailing node-id token turns
the higher-order flag on in any successful outcome. -/
theorem lem_tree_ho_activate_line {includeFlow : Bool} {idx : Option MLIndex}
    {lineNr : Nat} {cm cm' : ClusterMap} {line : String} {p nm : List Char}
    {f : ℚ} {sid nid : Nat} {st5 st6 : IStream}
    (h1 : treeStage1 lineNr line = .ok (p, f, nm, sid, st5))
    (h2 : st5.readNat = (some nid, st6))
    (h : readTreeLine includeFlow idx lineNr cm line = .ok cm') :
    cm'.isHigherOrder = true := by
  simp only [readTreeLine, h1, h2] at h
  simp only [Option.isNone_some, Bool.false_and, Bool.false_eq_true, if_false,
    Option.isSome_some, if_true, ite_true] at h
  split at h
  · rw [lem_treeEmit_ho h]
  · split at h
    · exact absurd h (by simp)
    · split at h
      · rw [← Except.ok.inj h]
      · rw [lem_treeEmit_ho h]

/-- With the higher-order flag on, a tree line whose read of the optional
node-id token fails is rejected with the missing-field error. -/
theorem lem_tree_ho_missing_line {includeFlow : Bool} {idx : Option MLIndex}
    {lineNr : Nat} {cm : ClusterMap} {line : String} {p nm : List Char}
    {f : ℚ} {sid : Nat} {st5 : IStream}
    (hho : cm.isHigherOrder = true)
    (h1 : treeStage1 lineNr line = .ok (p, f, nm, sid, st5))
    (h2 : (st5.readNat).1 = none) :
    readTreeLine includeFlow idx lineNr cm line = .error (.missingHigherOrder line) := by
  simp only [readTreeLine, h1]
  simp [h2, hho]

/-- A multilayer tree record whose (layer, node) pair misses the index is
dropped: the only effect of the line is the higher-order flag having been
turned on by its node-id token. -/
theorem lem_tree_multilayer_miss {includeFlow : Bool} {index : MLIndex}
    {lineNr : Nat} {cm : ClusterMap} {line : String} {p nm : List Char}
    {f : ℚ} {sid nid lid : Nat} {st5 st6 st7 : IStream}
    (h1 : treeStage1 lineNr line = .ok (p, f, nm, sid, st5))
    (h2 : st5.readNat = (some nid, st6))
    (h3 : st6.readNat = (some lid, st7))
    (h4 : resolve index lid nid = none) :
    readTreeLine includeFlow (some index) lineNr cm line =
      .ok { cm with isHigherOrder := true } := by
  simp only [readTreeLine, h1, h2, h3]
  simp [h4]

/-- `takeWhile`/`dropWhile` split an append at the first failing element. -/
theorem lem_takeWhile_append (p : Char → Bool) :
    ∀ (l : List Char) (x : Char) (rest : List Char),
      (∀ c ∈ l, p c = true) → p x = false →
      ((l ++ x :: rest).takeWhile p = l ∧ (l ++ x :: rest).dropWhile p = x :: rest) := by
  intro l
  induction l with
  | nil =>
    intro x rest _ hx
    rw [List.nil_append, List.takeWhile_cons_of_neg (by simp [hx]),
      List.dropWhile_cons_of_neg (by simp [hx])]
    exact ⟨rfl, rfl⟩
  | cons a t ih =>
    intro x rest hall hx
    have ha : p a = true := hall a (by simp)
    have ht := ih x rest (fun c hc => hall c (by simp [hc])) hx
    rw [List.cons_append, List.takeWhile_cons_of_pos ha, List.dropWhile_cons_of_pos ha,
      ht.1, ht.2]
    exact ⟨rfl, rfl⟩

/-- The two-`getline` name extraction: on a fresh stream whose text is
`pre "mid" post` with `pre` and `mid` quote-free, the first `getline`
yields the text before the opening quote and the second yields exactly the
text strictly between the two quotes, leaving `post`. -/
theorem lem_getlineQ_quoted (pre mid post : List Char)
    (hpre : ∀ c ∈ pre, c ≠ '"') (hmid : ∀ c ∈ mid, c ≠ '"') :
    (IStream.mk (pre ++ ('"' :: (mid ++ ('"' :: post)))) false false).getlineQ
        = (some pre, ⟨mid ++ ('"' :: post), false, false⟩) ∧
      (IStream.mk (mid ++ ('"' :: post)) false false).getlineQ
        = (some mid, ⟨post, false, false⟩) := by
  have hq : (fun c => decide (c ≠ '"')) '"' = false := by decide
  have h1 := lem_takeWhile_append (fun c => decide (c ≠ '"')) pre '"' (mid ++ ('"' :: post))
    (fun c hc => by simpa using hpre c hc) hq
  have h2 := lem_takeWhile_append (fun c => decide (c ≠ '"')) mid '"' post
    (fun c hc => by simpa using hmid c hc) hq
  constructor
  · simp only [IStream.getlineQ]
    rw [h1.1, h1.2]
    simp
  · simp only [IStream.getlineQ]
    rw [h2.1, h2.2]
    simp

/-- `getline` fails exactly when it can extract no characters: the stream
is already bad, or no input remains. -/
theorem lem_getlineQ_none_iff (st : IStream) :
    (st.getlineQ).1 = none ↔ (st.failb = true ∨ st.eofb = true ∨ st.chars = []) := by
  simp only [IStream.getlineQ]
  split
  · rename_i hbad
    rw [Bool.or_eq_true] at hbad
    constructor
    · intro _
      rcases hbad with h | h
      · exact Or.inl h
      · exact Or.inr (Or.inl h)
    · intro _
      rfl
  · rename_i hbad
    rw [Bool.or_eq_true] at hbad
    push_neg at hbad
    split
    · rename_i hemp
      simp only [List.isEmpty_iff] at hemp
      simp [hemp]
    · rename_i hemp
      simp only [List.isEmpty_iff] at hemp
      split
      · simp [hbad.1, hbad.2, hemp]
      · simp [hbad.1, hbad.2, hemp]

/-- Where no integer can be read, the path loop stops silently with the
path collected so far. -/
theorem lem_parsePathGo_stop {fuel : Nat} {st : IStream} {acc : List Nat}
    (h : (st.readNat).1 = none) : parsePathGo (fuel + 1) st acc = .ok acc := by
  simp only [parsePathGo]
  cases hr : st.readNat with
  | mk v st2 =>
    rw [hr] at h
    cases v with
    | none => rfl
    | some n => exact absurd h (by simp)

/-- A successfully read nonzero integer is appended and exactly one
delimiting character is consumed before the loop continues. -/
theorem lem_parsePathGo_step {fuel : Nat} {st st' : IStream} {acc : List Nat} {n : Nat}
    (h : st.readNat = (some n, st')) (hn : n ≠ 0) :
    parsePathGo (fuel + 1) st acc = parsePathGo fuel st'.getc (acc ++ [n]) := by
  simp only [parsePathGo, h]
  simp [hn]

/-- A read integer 0 aborts the path decoding with the path-element
error. -/
theorem lem_parsePathGo_zero {fuel : Nat} {st st' : IStream} {acc : List Nat}
    (h : st.readNat = (some 0, st')) :
    parsePathGo (fuel + 1) st acc = .error .zeroInPath := by
  simp only [parsePathGo, h]
  simp

/-- The flow update of a `.clu` line touches only `m_flowData`. -/
theorem lem_cluFlowUpdate_presv (includeFlow : Bool) (cm : ClusterMap) (sid : Nat)
    (fl : Option ℚ) :
    (cluFlowUpdate includeFlow cm sid fl).clusterIds = cm.clusterIds ∧
      (cluFlowUpdate includeFlow cm sid fl).nodePaths = cm.nodePaths ∧
      (cluFlowUpdate includeFlow cm sid fl).isHigherOrder = cm.isHigherOrder := by
  unfold cluFlowUpdate
  split
  · split
    · exact ⟨rfl, rfl, rfl⟩
    · exact ⟨rfl, rfl, rfl⟩
  · exact ⟨rfl, rfl, rfl⟩

/-- A multilayer `.clu` record whose (layer, node) pair misses the index
is dropped from `m_clusterIds` without an error; `m_nodePaths` is untouched
(the flow, read before the lookup, is not constrained here). -/
theorem lem_clu_multilayer_miss {includeFlow : Bool} {index : MLIndex} {cm : ClusterMap}
    {line : String} {sid mid nid lid : Nat} {fl : Option ℚ} {st1 st2 st3 st4 st5 : IStream}
    (h1 : (IStream.mk line.data false false).readNat = (some sid, st1))
    (h2 : st1.readNat = (some mid, st2))
    (h3 : st2.readRat = (fl, st3))
    (h4 : st3.readNat = (some nid, st4))
    (h5 : st4.readNat = (some lid, st5))
    (h6 : resolve index lid nid = none) :
    ∃ cm', readCluLine includeFlow (some index) cm line = .ok cm' ∧
      cm'.clusterIds = cm.clusterIds ∧ cm'.nodePaths = cm.nodePaths := by
  simp only [readCluLine, h1, h2, h3, h4, h5, h6]
  exact ⟨cluFlowUpdate includeFlow cm sid fl, rfl,
    (lem_cluFlowUpdate_presv includeFlow cm sid fl).1,
    (lem_cluFlowUpdate_presv includeFlow cm sid fl).2.1⟩

/-- In single-layer mode (with the higher-order flag off, so that the
optional-token check cannot fire first), a tree record whose path decoding
meets a 0 fails with the path-element error. -/
theorem lem_tree_zero_path_single {includeFlow : Bool} {lineNr : Nat} {cm : ClusterMap}
    {line : String} {p nm : List Char} {f : ℚ} {sid : Nat} {st5 : IStream}
    (hho : cm.isHigherOrder = false)
    (h1 : treeStage1 lineNr line = .ok (p, f, nm, sid, st5))
    (h2 : parsePath p = .error .zeroInPath) :
    readTreeLine includeFlow none lineNr cm line = .error .zeroInPath := by
  simp only [readTreeLine, h1]
  simp [hho, h2, treeEmit]

/-- In multilayer mode, when the record's (layer, node) pair does resolve,
a path decoding that meets a 0 fails with the path-element error. -/
theorem lem_tree_zero_path_hit {includeFlow : Bool} {index : MLIndex} {lineNr : Nat}
    {cm : ClusterMap} {line : String} {p nm : List Char} {f : ℚ}
    {sid nid lid sid2 : Nat} {st5 st6 st7 : IStream}
    (h1 : treeStage1 lineNr line = .ok (p, f, nm, sid, st5))
    (h2 : st5.readNat = (some nid, st6))
    (h3 : st6.readNat = (some lid, st7))
    (h4 : resolve index lid nid = some sid2)
    (h5 : parsePath p = .error .zeroInPath) :
    readTreeLine includeFlow (some index) lineNr cm line = .error .zeroInPath := by
  simp only [readTreeLine, h1, h2, h3]
  simp [h4, h5, treeEmit]

/-- In the tree loop, a `*` line is a hard stop: the lines after it are
irrelevant to the result. -/
theorem lem_readTreeLoop_star (includeFlow : Bool) (idx : Option MLIndex)
    (star : String) (t : List Char) (hstar : star.data = '*' :: t) :
    ∀ (pre rest : List String) (lineNr : Nat) (cm : ClusterMap),
      readTreeLoop includeFlow idx (pre ++ star :: rest) lineNr cm =
        readTreeLoop includeFlow idx (pre ++ [star]) lineNr cm := by
  intro pre
  induction pre with
  | nil =>
    intro rest lineNr cm
    simp only [List.nil_append, readTreeLoop, hstar]
    simp
  | cons line pre2 ih =>
    intro rest lineNr cm
    simp only [List.cons_append, readTreeLoop]
    cases hl : line.data with
    | nil => exact ih rest (lineNr + 1) cm
    | cons c cs =>
      simp only []
      by_cases hc : c = '#'
      · rw [if_pos hc, if_pos hc]
        exact ih rest (lineNr + 1) cm
      · rw [if_neg hc, if_neg hc]
        by_cases hs : c = '*'
        · rw [if_pos hs, if_pos hs]
        · rw [if_neg hs, if_neg hs]
          cases hr : readTreeLine includeFlow idx (lineNr + 1) cm line with
          | error e => rfl
          | ok cm2 => exact ih rest (lineNr + 1) cm2

/-- In the flat-format loop, a `*` line is merely skipped: removing it
leaves the result unchanged. -/
theorem lem_readCluLoop_star (includeFlow : Bool) (idx : Option MLIndex)
    (star : String) (t : List Char) (hstar : star.data = '*' :: t) :
    ∀ (pre rest : List String) (cm : ClusterMap),
      readCluLoop includeFlow idx cm (pre ++ star :: rest) =
        readCluLoop includeFlow idx cm (pre ++ rest) := by
  intro pre
  induction pre with
  | nil =>
    intro rest cm
    simp only [List.nil_append, readCluLoop, hstar]
    simp
  | cons line pre2 ih =>
    intro rest cm
    simp only [List.cons_append, readCluLoop]
    cases hl : line.data with
    | nil => exact ih rest cm
    | cons c cs =>
      simp only []
      by_cases hc : c = '#'
      · rw [if_pos hc, if_pos hc]
        exact ih rest cm
      · rw [if_neg hc, if_neg hc]
        by_cases hs : c = '*'
        · rw [if_pos hs, if_pos hs]
          exact ih rest cm
        · rw [if_neg hs, if_neg hs]
          cases hr : readCluLine includeFlow idx cm line with
          | error e => rfl
          | ok cm2 => exact ih rest cm2

/-- `treeEmit` never touches `m_clusterIds`. -/
theorem lem_treeEmit_clusterIds {includeFlow : Bool} {cm cm' : ClusterMap} {sid : Nat}
    {p : List Char} {fl : ℚ} (h : treeEmit includeFlow cm sid p fl = .ok cm') :
    cm'.clusterIds = cm.clusterIds := by
  simp only [treeEmit] at h
  split at h
  · exact absurd h (by simp)
  · split at h
    · rw [← Except.ok.inj h]
    · rw [← Except.ok.inj h]

/-- A tree data line never touches `m_clusterIds`. -/
theorem lem_readTreeLine_clusterIds {includeFlow : Bool} {idx : Option MLIndex}
    {lineNr : Nat} {cm cm' : ClusterMap} {line : String}
    (h : readTreeLine includeFlow idx lineNr cm line = .ok cm') :
    cm'.clusterIds = cm.clusterIds := by
  simp only [readTreeLine] at h
  split at h
  · exact absurd h (by simp)
  · rename_i x pth fl nm sid st5 heq
    split at h
    · exact absurd h (by simp)
    · generalize hg :
        (if (st5.readNat).1.isSome = true then { cm with isHigherOrder := true } else cm) = cm1 at h
      have hcl : cm1.clusterIds = cm.clusterIds := by
        rw [← hg]
        split
        · rfl
        · rfl
      split at h
      · rw [lem_treeEmit_clusterIds h, hcl]
      · split at h
        · exact absurd h (by simp)
        · split at h
          · rw [← Except.ok.inj h]
            exact hcl
          · rw [lem_treeEmit_clusterIds h, hcl]

/-- The whole tree loop never touches `m_clusterIds`. -/
theorem lem_readTreeLoop_clusterIds (includeFlow : Bool) (idx : Option MLIndex) :
    ∀ (lines : List String) (lineNr : Nat) (cm cm' : ClusterMap),
      readTreeLoop includeFlow idx lines lineNr cm = .ok cm' →
      cm'.clusterIds = cm.clusterIds := by
  intro lines
  induction lines with
  | nil =>
    intro n cm cm' h
    simp only [readTreeLoop] at h
    rw [← Except.ok.inj h]
  | cons line rest ih =>
    intro n cm cm' h
    simp only [readTreeLoop] at h
    cases hl : line.data with
    | nil =>
      rw [hl] at h
      exact ih (n + 1) cm cm' h
    | cons c cs =>
      rw [hl] at h
      simp only [] at h
      by_cases hc : c = '#'
      · rw [if_pos hc] at h
        exact ih (n + 1) cm cm' h
      · rw [if_neg hc] at h
        by_cases hs : c = '*'
        · rw [if_pos hs] at h
          rw [← Except.ok.inj h]
        · rw [if_neg hs] at h
          cases hr : readTreeLine includeFlow idx (n + 1) cm line with
          | error e =>
            rw [hr] at h
            exact absurd h (by simp)
          | ok cm2 =>
            rw [hr] at h
            rw [ih (n + 1) cm2 cm' h, lem_readTreeLine_clusterIds hr]

/-- A `.clu` data line never touches `m_nodePaths` or the higher-order
flag. -/
theorem lem_readCluLine_presv {includeFlow : Bool} {idx : Option MLIndex}
    {cm cm' : ClusterMap} {line : String}
    (h : readCluLine includeFlow idx cm line = .ok cm') :
    cm'.nodePaths = cm.nodePaths ∧ cm'.isHigherOrder = cm.isHigherOrder := by
  simp only [readCluLine] at h
  split at h
  · rename_i sid mid hsid hmid
    have hF := lem_cluFlowUpdate_presv includeFlow cm sid
      ((IStream.readNat (IStream.readNat ⟨line.data, false, false⟩).2).2.readRat).1
    split at h
    · rw [← Except.ok.inj h]
      exact ⟨hF.2.1, hF.2.2⟩
    · split at h
      · exact absurd h (by simp)
      · split at h
        · exact absurd h (by simp)
        · split at h
          · rw [← Except.ok.inj h]
            exact ⟨hF.2.1, hF.2.2⟩
          · rw [← Except.ok.inj h]
            exact ⟨hF.2.1, hF.2.2⟩
  · exact absurd h (by simp)

/-- The whole flat-format loop never touches `m_nodePaths` or the
higher-order flag. -/
theorem lem_readCluLoop_presv (includeFlow : Bool) (idx : Option MLIndex) :
    ∀ (lines : List String) (cm cm' : ClusterMap),
      readCluLoop includeFlow idx cm lines = .ok cm' →
      cm'.nodePaths = cm.nodePaths ∧ cm'.isHigherOrder = cm.isHigherOrder := by
  intro lines
  induction lines with
  | nil =>
    intro cm cm' h
    simp only [readCluLoop] at h
    rw [← Except.ok.inj h]
    exact ⟨rfl, rfl⟩
  | cons line rest ih =>
    intro cm cm' h
    simp only [readCluLoop] at h
    cases hl : line.data with
    | nil =>
      rw [hl] at h
      exact ih cm cm' h
    | cons c cs =>
      rw [hl] at h
      simp only [] at h
      by_cases hc : c = '#'
      · rw [if_pos hc] at h
        exact ih cm cm' h
      · rw [if_neg hc] at h
        by_cases hs : c = '*'
        · rw [if_pos hs] at h
          exact ih cm cm' h
        · rw [if_neg hs] at h
          cases hr : readCluLine includeFlow idx cm line with
          | error e =>
            rw [hr] at h
            exact absurd h (by simp)
          | ok cm2 =>
            rw [hr] at h
            have h1 := ih cm2 cm' h
            have h2 := lem_readCluLine_presv hr
            exact ⟨h1.1.trans h2.1, h1.2.trans h2.2⟩

/-- Once on, the higher-order flag stays on for the rest of a successful
tree loop. -/
theorem lem_tree_ho_persist_loop (includeFlow : Bool) (idx : Option MLIndex) :
    ∀ (lines : List String) (lineNr : Nat) (cm cm' : ClusterMap),
      cm.isHigherOrder = true →
      readTreeLoop includeFlow idx lines lineNr cm = .ok cm' →
      cm'.isHigherOrder = true := by
  intro lines
  induction lines with
  | nil =>
    intro n cm cm' hho h
    simp only [readTreeLoop] at h
    rw [← Except.ok.inj h]
    exact hho
  | cons line rest ih =>
    intro n cm cm' hho h
    simp only [readTreeLoop] at h
    cases hl : line.data with
    | nil =>
      rw [hl] at h
      exact ih (n + 1) cm cm' hho h
    | cons c cs =>
      rw [hl] at h
      simp only [] at h
      by_cases hc : c = '#'
      · rw [if_pos hc] at h
        exact ih (n + 1) cm cm' hho h
      · rw [if_neg hc] at h
        by_cases hs : c = '*'
        · rw [if_pos hs] at h
          rw [← Except.ok.inj h]
          exact hho
        · rw [if_neg hs] at h
          cases hr : readTreeLine includeFlow idx (n + 1) cm line with
          | error e =>
            rw [hr] at h
            exact absurd h (by simp)
          | ok cm2 =>
            rw [hr] at h
            exact ih (n + 1) cm2 cm' (lem_tree_ho_persist_line hho hr) h

/-!  The claims. -/

/-- C1, counterexample: for the `.clu` multilayer line `5 3 0.1 10 2` with
`includeFlow` and index layer 2, node 10 → 42, the flow is NOT stored under
the resolved state id 42 — `FlowData` has no key 42 and instead keys the
raw state id 5 read from the line. -/
theorem c1_counterexample :
    readClusterData "partition.clu" true (some sampleIndex) .init ["5 3 0.1 10 2"] =
      .ok ⟨[], [(42, 3)], [(5, Rat.divInt 1 10)], false, "clu"⟩ ∧
    mapLookup ([(5, Rat.divInt 1 10)] : List (Nat × ℚ)) 42 = none ∧
    mapLookup ([(5, Rat.divInt 1 10)] : List (Nat × ℚ)) 5 = some (Rat.divInt 1 10) ∧
    Rat.divInt 1 10 = (0.1 : ℚ) := by
  refine ⟨rfl, rfl, rfl, ?_⟩
  rw [Rat.divInt_eq_div]
  norm_num

/-- C1 (amended): in `.clu` multilayer mode the cluster assignment is keyed
by the resolved state id (ClusterAssignment[42] = 3, nothing under 5), but
the flow — recorded before the index lookup — is keyed by the raw state id
from the line (FlowData[5] = 0.1, nothing under 42). -/
theorem c1_clu_flow_raw_state_id :
    readClusterData "partition.clu" true (some sampleIndex) .init ["5 3 0.1 10 2"] =
      .ok ⟨[], [(42, 3)], [(5, Rat.divInt 1 10)], false, "clu"⟩ ∧
    mapLookup ([(42, 3)] : List (Nat × Nat)) 42 = some 3 ∧
    mapLookup ([(42, 3)] : List (Nat × Nat)) 5 = none ∧
    mapLookup ([(5, Rat.divInt 1 10)] : List (Nat × ℚ)) 5 = some (Rat.divInt 1 10) ∧
    mapLookup ([(5, Rat.divInt 1 10)] : List (Nat × ℚ)) 42 = none ∧
    Rat.divInt 1 10 = (0.1 : ℚ) := by
  refine ⟨rfl, rfl, rfl, rfl, rfl, ?_⟩
  rw [Rat.divInt_eq_div]
  norm_num

/-- C2, counterexample: a `.clu` multilayer record whose (layer, node) pair
is absent from the index does leave an entry in `FlowData` (under the raw
state id) when a flow token is present and `includeFlow` is set, so the
record is not dropped from all three collections. -/
theorem c2_counterexample :
    readClu true (some emptyIndexML) .init ["5 3 0.1 10 2"] =
      .ok ⟨[], [], [(5, Rat.divInt 1 10)], false, ""⟩ ∧
    (⟨[], [], [(5, Rat.divInt 1 10)], false, ""⟩ : ClusterMap).flowData ≠ [] := by
  exact ⟨rfl, fun h => List.noConfusion h⟩

/-- C2 (amended): a record whose (layer, node) pair misses the index is
silently skipped — no error, and nothing is added to NodePaths or
ClusterAssignment; in the tree parser FlowData is untouched too, but in the
`.clu` parser the flow (when present, with `includeFlow`) has already been
recorded under the raw state id before the lookup. -/
theorem c2_multilayer_miss_skip :
    (∀ (includeFlow : Bool) (index : MLIndex) (lineNr : Nat) (cm : ClusterMap)
        (line : String) (p nm : List Char) (f : ℚ) (sid nid lid : Nat)
        (st5 st6 st7 : IStream),
        treeStage1 lineNr line = .ok (p, f, nm, sid, st5) →
        st5.readNat = (some nid, st6) →
        st6.readNat = (some lid, st7) →
        resolve index lid nid = none →
        ∃ cm', readTreeLine includeFlow (some index) lineNr cm line = .ok cm' ∧
          cm'.nodePaths = cm.nodePaths ∧ cm'.flowData = cm.flowData ∧
          cm'.clusterIds = cm.clusterIds) ∧
    (∀ (includeFlow : Bool) (index : MLIndex) (cm : ClusterMap) (line : String)
        (sid mid nid lid : Nat) (fl : Option ℚ) (st1 st2 st3 st4 st5 : IStream),
        (IStream.mk line.data false false).readNat = (some sid, st1) →
        st1.readNat = (some mid, st2) →
        st2.readRat = (fl, st3) →
        st3.readNat = (some nid, st4) →
        st4.readNat = (some lid, st5) →
        resolve index lid nid = none →
        ∃ cm', readCluLine includeFlow (some index) cm line = .ok cm' ∧
          cm'.clusterIds = cm.clusterIds ∧ cm'.nodePaths = cm.nodePaths) ∧
    readCluLine true (some emptyIndexML) .init "5 3 0.1 10 2" =
      .ok ⟨[], [], [(5, Rat.divInt 1 10)], false, ""⟩ := by
  refine ⟨?_, ?_, rfl⟩
  · intro includeFlow index lineNr cm line p nm f sid nid lid st5 st6 st7 h1 h2 h3 h4
    exact ⟨{ cm with isHigherOrder := true },
      lem_tree_multilayer_miss h1 h2 h3 h4, rfl, rfl, rfl⟩
  · intro includeFlow index cm line sid mid nid lid fl st1 st2 st3 st4 st5 h1 h2 h3 h4 h5 h6
    exact lem_clu_multilayer_miss h1 h2 h3 h4 h5 h6

/-- C2, witness: the general skip statements applied to the concrete
records `1:1:1 0.5 "a" 5 10 2` (tree) and `5 3 0.1 10 2` (clu) against an
empty index. -/
theorem c2_multilayer_miss_skip_witness :
    (∃ cm', readTreeLine false (some emptyIndexML) 1 ClusterMap.init
        "1:1:1 0.5 \"a\" 5 10 2" = .ok cm' ∧
      cm'.nodePaths = ClusterMap.init.nodePaths ∧
      cm'.flowData = ClusterMap.init.flowData ∧
      cm'.clusterIds = ClusterMap.init.clusterIds) ∧
    (∃ cm', readCluLine true (some emptyIndexML) ClusterMap.init "5 3 0.1 10 2" = .ok cm' ∧
      cm'.clusterIds = ClusterMap.init.clusterIds ∧
      cm'.nodePaths = ClusterMap.init.nodePaths) :=
  ⟨c2_multilayer_miss_skip.1 false emptyIndexML 1 ClusterMap.init "1:1:1 0.5 \"a\" 5 10 2"
      "1:1:1".data "a".data (Rat.divInt 1 2) 5 10 2
      ⟨" 10 2".data, false, false⟩ ⟨" 2".data, false, false⟩ ⟨[], true, false⟩
      rfl rfl rfl rfl,
    c2_multilayer_miss_skip.2.1 true emptyIndexML ClusterMap.init "5 3 0.1 10 2"
      5 3 10 2 (some (Rat.divInt 1 10))
      ⟨" 3 0.1 10 2".data, false, false⟩ ⟨" 0.1 10 2".data, false, false⟩
      ⟨" 10 2".data, false, false⟩ ⟨" 2".data, false, false⟩ ⟨[], true, false⟩
      rfl rfl rfl rfl rfl rfl⟩

/-- C3, counterexample: state left by a previous parse is not reset: with
the higher-order flag still on, a `.tree` file that parses fine from a
fresh object fails; and a `.clu` parse clears none of the collections (the
stale `ClusterAssignment`, `FlowData` and flag survive an empty parse). -/
theorem c3_counterexample :
    readClusterData "g.tree" false none cmPrev ["1:1:2 0.5 \"b\" 2"] =
      .error (.missingHigherOrder "1:1:2 0.5 \"b\" 2") ∧
    readClusterData "g.tree" false none .init ["1:1:2 0.5 \"b\" 2"] =
      .ok ⟨[(2, [1, 1, 2])], [], [], false, "tree"⟩ ∧
    readClusterData "f.clu" false none cmPrev [] =
      .ok ⟨[(9, [9])], [(1, 2)], [(7, Rat.divInt 1 2)], true, "clu"⟩ := by
  exact ⟨rfl, rfl, rfl⟩

/-- C3 (amended): at the start of a parse call, only `m_nodePaths` is
cleared (by the tree parser); the tree parser never touches
`ClusterAssignment`, the flat parser never touches `NodePaths` or the
higher-order flag, and `ClusterAssignment`, `FlowData` and the flag are
carried over from the previous call on the same object. -/
theorem c3_reset_only_node_paths :
    (∀ (includeFlow : Bool) (idx : Option MLIndex) (cm : ClusterMap) (lines : List String),
        readTree includeFlow idx cm lines =
          readTree includeFlow idx { cm with nodePaths := [] } lines) ∧
    (∀ (includeFlow : Bool) (idx : Option MLIndex) (cm cm' : ClusterMap) (lines : List String),
        readTree includeFlow idx cm lines = .ok cm' → cm'.clusterIds = cm.clusterIds) ∧
    (∀ (includeFlow : Bool) (idx : Option MLIndex) (cm cm' : ClusterMap) (lines : List String),
        readClu includeFlow idx cm lines = .ok cm' →
        cm'.nodePaths = cm.nodePaths ∧ cm'.isHigherOrder = cm.isHigherOrder) ∧
    readClusterData "f.tree" false none cmPrev [] =
      .ok ⟨[], [(1, 2)], [(7, Rat.divInt 1 2)], true, "tree"⟩ := by
  refine ⟨?_, ?_, ?_, rfl⟩
  · intro includeFlow idx cm lines
    rfl
  · intro includeFlow idx cm cm' lines h
    exact lem_readTreeLoop_clusterIds includeFlow idx lines 0 { cm with nodePaths := [] } cm' h
  · intro includeFlow idx cm cm' lines h
    exact lem_readCluLoop_presv includeFlow idx lines cm cm' h

/-- C3, witness: the non-clearing statements applied to the state left by a
previous parse. -/
theorem c3_reset_only_node_paths_witness :
    ((⟨[], [(1, 2)], [(7, Rat.divInt 1 2)], true, ""⟩ : ClusterMap).clusterIds =
        cmPrev.clusterIds) ∧
    ((⟨[(9, [9])], [(1, 2)], [(7, Rat.divInt 1 2)], true, ""⟩ : ClusterMap).nodePaths =
        cmPrev.nodePaths ∧
      (⟨[(9, [9])], [(1, 2)], [(7, Rat.divInt 1 2)], true, ""⟩ : ClusterMap).isHigherOrder =
        cmPrev.isHigherOrder) :=
  ⟨c3_reset_only_node_paths.2.1 false none cmPrev
      ⟨[], [(1, 2)], [(7, Rat.divInt 1 2)], true, ""⟩ [] rfl,
    c3_reset_only_node_paths.2.2.1 false none cmPrev
      ⟨[(9, [9])], [(1, 2)], [(7, Rat.divInt 1 2)], true, ""⟩ [] rfl⟩

/-- C4: `readClusterData` takes the extension from the path's suffix after
the last dot (`getExtension`, modelled from the spec for the external
`FileURI`), routes `tree`/`ftree` to the tree parser and `clu` to the flat
parser, and fails on any other extension with an unsupported-format error
naming that extension, independently of the file's lines. -/
theorem c4_dispatch :
    (∀ (fn : String) (includeFlow : Bool) (idx : Option MLIndex) (cm : ClusterMap)
        (lines : List String),
        getExtension fn ≠ "tree" → getExtension fn ≠ "ftree" → getExtension fn ≠ "clu" →
        readClusterData fn includeFlow idx cm lines =
          .error (.unsupportedFormat fn (getExtension fn))) ∧
    (∀ (fn : String) (includeFlow : Bool) (idx : Option MLIndex) (cm : ClusterMap)
        (lines : List String),
        getExtension fn = "tree" ∨ getExtension fn = "ftree" →
        readClusterData fn includeFlow idx cm lines =
          readTree includeFlow idx { cm with extension := getExtension fn } lines) ∧
    (∀ (fn : String) (includeFlow : Bool) (idx : Option MLIndex) (cm : ClusterMap)
        (lines : List String),
        getExtension fn = "clu" →
        readClusterData fn includeFlow idx cm lines =
          readClu includeFlow idx { cm with extension := getExtension fn } lines) ∧
    getExtension "data.csv" = "csv" ∧
    readClusterData "data.csv" false none .init ["1:1:1 0.5 \"a\" 1"] =
      .error (.unsupportedFormat "data.csv" "csv") := by
  refine ⟨?_, ?_, ?_, rfl, rfl⟩
  · intro fn includeFlow idx cm lines h1 h2 h3
    have hc1 : (decide (getExtension fn = "tree") || decide (getExtension fn = "ftree")) = false := by
      simp [h1, h2]
    simp only [readClusterData, hc1]
    rw [if_neg h3]
    simp
  · intro fn includeFlow idx cm lines h
    have hc1 : (decide (getExtension fn = "tree") || decide (getExtension fn = "ftree")) = true := by
      rcases h with h | h
      · simp [h]
      · simp [h]
    simp only [readClusterData, hc1]
    simp
  · intro fn includeFlow idx cm lines h
    have hc1 : (decide (getExtension fn = "tree") || decide (getExtension fn = "ftree")) = false := by
      rw [h]
      decide
    simp only [readClusterData, hc1]
    rw [if_pos h]
    simp

/-- C4, witness: the dispatch statements applied to `data.csv`, `a.tree`
and `a.clu`. -/
theorem c4_dispatch_witness :
    readClusterData "data.csv" true none ClusterMap.init ["5 3"] =
      .error (.unsupportedFormat "data.csv" "csv") ∧
    readClusterData "a.tree" true none ClusterMap.init [] =
      readTree true none { ClusterMap.init with extension := "tree" } [] ∧
    readClusterData "a.clu" true none ClusterMap.init [] =
      readClu true none { ClusterMap.init with extension := "clu" } [] :=
  ⟨c4_dispatch.1 "data.csv" true none ClusterMap.init ["5 3"]
      (by decide) (by decide) (by decide),
    c4_dispatch.2.1 "a.tree" true none ClusterMap.init [] (Or.inl rfl),
    c4_dispatch.2.2.1 "a.clu" true none ClusterMap.init [] rfl⟩

/-- C5: a tree record that supplies the trailing node-id token switches
every successful parse outcome of its line to higher-order mode; the flag
then persists through the rest of the loop, and any later record whose
node-id read fails is rejected with the missing-field error — so a file
whose first data line has the token and whose second omits it fails. -/
theorem c5_higher_order_mode :
    (∀ (includeFlow : Bool) (idx : Option MLIndex) (lineNr : Nat) (cm cm' : ClusterMap)
        (line : String) (p nm : List Char) (f : ℚ) (sid nid : Nat) (st5 st6 : IStream),
        treeStage1 lineNr line = .ok (p, f, nm, sid, st5) →
        st5.readNat = (some nid, st6) →
        readTreeLine includeFlow idx lineNr cm line = .ok cm' →
        cm'.isHigherOrder = true) ∧
    (∀ (includeFlow : Bool) (idx : Option MLIndex) (lines : List String) (lineNr : Nat)
        (cm cm' : ClusterMap),
        cm.isHigherOrder = true →
        readTreeLoop includeFlow idx lines lineNr cm = .ok cm' →
        cm'.isHigherOrder = true) ∧
    (∀ (includeFlow : Bool) (idx : Option MLIndex) (lineNr : Nat) (cm : ClusterMap)
        (line : String) (p nm : List Char) (f : ℚ) (sid : Nat) (st5 : IStream),
        cm.isHigherOrder = true →
        treeStage1 lineNr line = .ok (p, f, nm, sid, st5) →
        (st5.readNat).1 = none →
        readTreeLine includeFlow idx lineNr cm line = .error (.missingHigherOrder line)) ∧
    readTree false none .init ["1:1:1 0.5 \"a\" 1 7", "1:1:2 0.5 \"b\" 2"] =
      .error (.missingHigherOrder "1:1:2 0.5 \"b\" 2") ∧
    readTree false none .init ["1:1:2 0.5 \"b\" 2"] =
      .ok ⟨[(2, [1, 1, 2])], [], [], false, ""⟩ := by
  refine ⟨?_, ?_, ?_, rfl, rfl⟩
  · intro includeFlow idx lineNr cm cm' line p nm f sid nid st5 st6 h1 h2 h3
    exact lem_tree_ho_activate_line h1 h2 h3
  · intro includeFlow idx lines lineNr cm cm' hho h
    exact lem_tree_ho_persist_loop includeFlow idx lines lineNr cm cm' hho h
  · intro includeFlow idx lineNr cm line p nm f sid st5 hho h1 h2
    exact lem_tree_ho_missing_line hho h1 h2

/-- C5, witness: with the flag already on, the record `1:1:2 0.5 "b" 2`
(no trailing node id) is rejected. -/
theorem c5_higher_order_mode_witness :
    readTreeLine false none 1 ⟨[], [], [], true, ""⟩ "1:1:2 0.5 \"b\" 2" =
      .error (.missingHigherOrder "1:1:2 0.5 \"b\" 2") :=
  c5_higher_order_mode.2.2.1 false none 1 ⟨[], [], [], true, ""⟩ "1:1:2 0.5 \"b\" 2"
    "1:1:2".data "b".data (Rat.divInt 1 2) 2 ⟨[], true, false⟩
    rfl rfl rfl

/-- C6, counterexample: in multilayer mode a record whose (layer, node)
pair misses the index is skipped before its path token is decoded, so the
path `1:0:2` containing a 0 produces no error at all — the claim's "always
fails in every mode" is false. -/
theorem c6_counterexample :
    readTree false (some emptyIndexML) .init ["1:0:2 0.5 \"a\" 5 10 2"] =
      .ok ⟨[], [], [], true, ""⟩ := rfl

/-- C6 (amended): a tree record whose path decoding meets a 0 fails with
the path-element error in single-layer mode and in multilayer mode when the
record resolves; a multilayer record dropped by an index miss never decodes
its path and cannot fail on it. -/
theorem c6_zero_path :
    (∀ (includeFlow : Bool) (lineNr : Nat) (cm : ClusterMap) (line : String)
        (p nm : List Char) (f : ℚ) (sid : Nat) (st5 : IStream),
        cm.isHigherOrder = false →
        treeStage1 lineNr line = .ok (p, f, nm, sid, st5) →
        parsePath p = .error .zeroInPath →
        readTreeLine includeFlow none lineNr cm line = .error .zeroInPath) ∧
    (∀ (includeFlow : Bool) (index : MLIndex) (lineNr : Nat) (cm : ClusterMap)
        (line : String) (p nm : List Char) (f : ℚ) (sid nid lid sid2 : Nat)
        (st5 st6 st7 : IStream),
        treeStage1 lineNr line = .ok (p, f, nm, sid, st5) →
        st5.readNat = (some nid, st6) →
        st6.readNat = (some lid, st7) →
        resolve index lid nid = some sid2 →
        parsePath p = .error .zeroInPath →
        readTreeLine includeFlow (some index) lineNr cm line = .error .zeroInPath) ∧
    (∀ (includeFlow : Bool) (index : MLIndex) (lineNr : Nat) (cm : ClusterMap)
        (line : String) (p nm : List Char) (f : ℚ) (sid nid lid : Nat)
        (st5 st6 st7 : IStream),
        treeStage1 lineNr line = .ok (p, f, nm, sid, st5) →
        st5.readNat = (some nid, st6) →
        st6.readNat = (some lid, st7) →
        resolve index lid nid = none →
        readTreeLine includeFlow (some index) lineNr cm line =
          .ok { cm with isHigherOrder := true }) ∧
    parsePath "1:0:2".data = .error .zeroInPath ∧
    readTree false none .init ["1:0:2 0.5 \"a\" 2"] = .error .zeroInPath := by
  refine ⟨?_, ?_, ?_, rfl, rfl⟩
  · intro includeFlow lineNr cm line p nm f sid st5 hho h1 h2
    exact lem_tree_zero_path_single hho h1 h2
  · intro includeFlow index lineNr cm line p nm f sid nid lid sid2 st5 st6 st7 h1 h2 h3 h4 h5
    exact lem_tree_zero_path_hit h1 h2 h3 h4 h5
  · intro includeFlow index lineNr cm line p nm f sid nid lid st5 st6 st7 h1 h2 h3 h4
    exact lem_tree_multilayer_miss h1 h2 h3 h4

/-- C6, witness: the single-layer statement applied to the record
`1:0:2 0.5 "a" 2`. -/
theorem c6_zero_path_witness :
    readTreeLine false none 1 ClusterMap.init "1:0:2 0.5 \"a\" 2" =
      .error .zeroInPath :=
  c6_zero_path.1 false 1 ClusterMap.init "1:0:2 0.5 \"a\" 2"
    "1:0:2".data "a".data (Rat.divInt 1 2) 2 ⟨[], true, false⟩
    rfl rfl rfl

/-- C7: the single tree line `1:1:2 0.025641 "2" 2` with `includeFlow` and
no multilayer index yields exactly the NodePath (2, [1,1,2]) and
FlowData[2] = 0.025641. -/
theorem c7_sample_tree_line :
    readClusterData "network.tree" true none .init ["1:1:2 0.025641 \"2\" 2"] =
      .ok ⟨[(2, [1, 1, 2])], [], [(2, Rat.divInt 25641 1000000)], false, "tree"⟩ ∧
    mapLookup ([(2, Rat.divInt 25641 1000000)] : List (Nat × ℚ)) 2 =
      some (Rat.divInt 25641 1000000) ∧
    Rat.divInt 25641 1000000 = (0.025641 : ℚ) := by
  refine ⟨rfl, rfl, ?_⟩
  rw [Rat.divInt_eq_div]
  norm_num

/-- C8, counterexample: a record whose text after the flow token has an
opening quote and a nonempty name but no closing quote does not fail with
the name-conversion error — the name `getline` succeeds (taking the rest of
the line) and the parse fails later, at the state-id read. -/
theorem c8_counterexample :
    readTree false none .init ["1:1:2 0.5 \"2"] =
      .error (.badStateId "1:1:2 0.5 \"2") ∧
    readTree false none .init ["1:1:2 0.5 \"2"] ≠
      .error (.badName 1 "1:1:2 0.5 \"2") := by
  refine ⟨rfl, ?_⟩
  intro h
  have h2 : (Err.badStateId "1:1:2 0.5 \"2") = (Err.badName 1 "1:1:2 0.5 \"2") :=
    Except.error.inj ((rfl : readTree false none ClusterMap.init ["1:1:2 0.5 \"2"] =
      .error (.badStateId "1:1:2 0.5 \"2")).symm.trans h)
  exact Err.noConfusion h2

/-- C8 (amended): `getline` fails exactly when it extracts zero characters,
so the conversion error is raised when no text follows the flow token or
nothing follows the opening quote; an unclosed quote with nonempty text
succeeds (name = rest of the line) and the parse fails later at the
state-id read. When both quotes are present, the name is exactly the text
strictly between them. -/
theorem c8_name_extraction :
    (∀ (pre mid post : List Char),
        (∀ c ∈ pre, c ≠ '"') → (∀ c ∈ mid, c ≠ '"') →
        (IStream.mk (pre ++ ('"' :: (mid ++ ('"' :: post)))) false false).getlineQ
            = (some pre, ⟨mid ++ ('"' :: post), false, false⟩) ∧
          (IStream.mk (mid ++ ('"' :: post)) false false).getlineQ
            = (some mid, ⟨post, false, false⟩)) ∧
    (∀ st : IStream, (st.getlineQ).1 = none ↔
        (st.failb = true ∨ st.eofb = true ∨ st.chars = [])) ∧
    readTree false none .init ["1:1:2 0.5"] = .error (.badName 1 "1:1:2 0.5") ∧
    readTree false none .init ["1:1:2 0.5 \""] = .error (.badName 1 "1:1:2 0.5 \"") ∧
    treeStage1 1 "1:1:2 0.5 \"ab\" 7" =
      .ok ("1:1:2".data, Rat.divInt 1 2, "ab".data, 7, ⟨[], true, false⟩) := by
  refine ⟨?_, ?_, rfl, rfl, rfl⟩
  · intro pre mid post hpre hmid
    exact lem_getlineQ_quoted pre mid post hpre hmid
  · intro st
    exact lem_getlineQ_none_iff st

/-- C8, witness: the quoted-name statement applied to the text
` "b" 2` (pre = one space, name = `b`, post = ` 2`). -/
theorem c8_name_extraction_witness :
    (IStream.mk ([' '] ++ ('"' :: (['b'] ++ ('"' :: [' ', '2'])))) false false).getlineQ
        = (some [' '], ⟨['b'] ++ ('"' :: [' ', '2']), false, false⟩) ∧
      (IStream.mk (['b'] ++ ('"' :: [' ', '2'])) false false).getlineQ
        = (some ['b'], ⟨[' ', '2'], false, false⟩) :=
  c8_name_extraction.1 [' '] ['b'] [' ', '2'] (by decide) (by decide)

/-- C9: a `*` line is a hard stop for the tree parser — it ends the parse
successfully and the lines after it are irrelevant — while the flat parser
merely skips it and continues with the following lines. -/
theorem c9_star_asymmetry :
    (∀ (includeFlow : Bool) (idx : Option MLIndex) (star : String) (t : List Char),
        star.data = '*' :: t →
        ∀ (rest : List String) (lineNr : Nat) (cm : ClusterMap),
          readTreeLoop includeFlow idx (star :: rest) lineNr cm = .ok cm) ∧
    (∀ (includeFlow : Bool) (idx : Option MLIndex) (star : String) (t : List Char),
        star.data = '*' :: t →
        ∀ (pre rest : List String) (cm : ClusterMap),
          readTree includeFlow idx cm (pre ++ star :: rest) =
            readTree includeFlow idx cm (pre ++ [star])) ∧
    (∀ (includeFlow : Bool) (idx : Option MLIndex) (star : String) (t : List Char),
        star.data = '*' :: t →
        ∀ (pre rest : List String) (cm : ClusterMap),
          readClu includeFlow idx cm (pre ++ star :: rest) =
            readClu includeFlow idx cm (pre ++ rest)) := by
  refine ⟨?_, ?_, ?_⟩
  · intro includeFlow idx star t hstar rest lineNr cm
    simp only [readTreeLoop, hstar]
    simp
  · intro includeFlow idx star t hstar pre rest cm
    exact lem_readTreeLoop_star includeFlow idx star t hstar pre rest 0 _
  · intro includeFlow idx star t hstar pre rest cm
    exact lem_readCluLoop_star includeFlow idx star t hstar pre rest cm

/-- C9, witness: the section-line statements applied to `*Links 2 3` with a
bogus line after it. -/
theorem c9_star_asymmetry_witness :
    readTree false none ClusterMap.init
        (["1:1:1 0.5 \"a\" 1"] ++ "*Links 2 3" :: ["bogus"]) =
      readTree false none ClusterMap.init (["1:1:1 0.5 \"a\" 1"] ++ ["*Links 2 3"]) ∧
    readClu false none ClusterMap.init (["1 1"] ++ "*Links 2 3" :: ["2 2"]) =
      readClu false none ClusterMap.init (["1 1"] ++ ["2 2"]) :=
  ⟨c9_star_asymmetry.2.1 false none "*Links 2 3" "Links 2 3".data rfl
      ["1:1:1 0.5 \"a\" 1"] ["bogus"] ClusterMap.init,
    c9_star_asymmetry.2.2 false none "*Links 2 3" "Links 2 3".data rfl
      ["1 1"] ["2 2"] ClusterMap.init⟩

/-- C10: the path decoder reads one unsigned integer at a time, consumes
exactly one delimiter character after each, and stops silently at the first
position where no integer can be read — so `1::2` decodes to the truncated
path [1] with no error, and the full record emits (7, [1]). -/
theorem c10_path_decoder :
    (∀ (fuel : Nat) (st : IStream) (acc : List Nat),
        (st.readNat).1 = none → parsePathGo (fuel + 1) st acc = .ok acc) ∧
    (∀ (fuel : Nat) (st st' : IStream) (acc : List Nat) (n : Nat),
        st.readNat = (some n, st') → n ≠ 0 →
        parsePathGo (fuel + 1) st acc = parsePathGo fuel st'.getc (acc ++ [n])) ∧
    parsePath "1::2".data = .ok [1] ∧
    readTree false none .init ["1::2 0.5 \"a\" 7"] =
      .ok ⟨[(7, [1])], [], [], false, ""⟩ := by
  refine ⟨?_, ?_, rfl, rfl⟩
  · intro fuel st acc h
    exact lem_parsePathGo_stop h
  · intro fuel st st' acc n h hn
    exact lem_parsePathGo_step h hn

/-- C10, witness: the silent-stop statement applied to the remainder `:2`
after `1` and its delimiter were consumed. -/
theorem c10_path_decoder_witness :
    parsePathGo 3 ⟨":2".data, false, false⟩ [1] = .ok [1] :=
  c10_path_decoder.1 2 ⟨":2".data, false, false⟩ [1] rfl

end Infomap
